import Mathlib

/-!
Shallow embedding of the expense-tracker ledger engine (src/main.py).

The SQLite database is modelled as an explicit state `DB` holding the two
tables (`expenses`, `income`) as lists of rows kept in insertion order,
together with the AUTOINCREMENT sequence counter of each table
(SQLite stores it in `sqlite_sequence`; a fresh id is one larger than the
largest id ever assigned, so ids are never reused even after deletes).
`REAL` amounts are modelled as rationals.  SQLite compares `TEXT` values
with the BINARY collation (bytewise); on the ASCII data this engine works
with (dates of the form YYYY-MM-DD, category labels) this is lexicographic
comparison of the character sequences, modelled by `charListLe` below.
Each tool of src/main.py becomes a pure function from the current `DB`
(and the tool arguments) to the new `DB` and the returned payload, with
the ok/error discrimination of the returned dict expressed by the
result type.
-/

namespace ExpenseTracker

/-- Bytewise (lexicographic) comparison of character sequences: the model of
the SQLite BINARY collation used by every TEXT comparison in src/main.py. -/
def charListLe : List Char → List Char → Bool
  | [], _ => true
  | _ :: _, [] => false
  | a :: as, b :: bs =>
    if a.toNat < b.toNat then true
    else if b.toNat < a.toNat then false
    else charListLe as bs

/-- Lexicographic order on strings (SQLite BINARY collation on ASCII data). -/
def strLe (a b : String) : Bool := charListLe a.data b.data

/-- The comparison `strLe` as a relation, used for ORDER BY on text columns. -/
def strLeProp (a b : String) : Prop := strLe a b = true

instance : DecidableRel strLeProp := fun a b => instDecidableEqBool (strLe a b) true

/-- A row of the `expenses` table created by `init_db`:
id, date, amount, category, subcategory, note. -/
structure ExpenseRow where
  id : Nat
  date : String
  amount : ℚ
  category : String
  subcategory : String
  note : String
deriving DecidableEq

/-- A row of the `income` table created by `init_db`:
id, date, amount, source, note. -/
structure IncomeRow where
  id : Nat
  date : String
  amount : ℚ
  source : String
  note : String
deriving DecidableEq

/-- The whole database: both tables plus the AUTOINCREMENT counter of each. -/
structure DB where
  expenses : List ExpenseRow
  expSeq : Nat
  income : List IncomeRow
  incSeq : Nat
deriving DecidableEq

/-- The freshly initialised database (`init_db` creates both tables empty;
the AUTOINCREMENT counters start at 0, so the first assigned id is 1). -/
def init_db : DB := ⟨[], 0, [], 0⟩

/-- Invariant maintained by the store: within each table the rows are in
insertion order with strictly increasing ids (AUTOINCREMENT), and every id
is bounded by the sequence counter of its table. -/
def DB.WF (db : DB) : Prop :=
  db.expenses.Pairwise (fun a b => a.id < b.id) ∧
  (∀ r ∈ db.expenses, r.id ≤ db.expSeq) ∧
  db.income.Pairwise (fun a b => a.id < b.id) ∧
  (∀ r ∈ db.income, r.id ≤ db.incSeq)

/-- The SQL predicate `date BETWEEN ? AND ?` (inclusive on both ends). -/
def dateBetween (start_date end_date d : String) : Bool :=
  strLe start_date d && strLe d end_date

/-- Relation ordering rows of `expenses` by id, for `ORDER BY id ASC`. -/
def expIdLe (a b : ExpenseRow) : Prop := a.id ≤ b.id

instance : DecidableRel expIdLe := fun a b => Nat.decLe a.id b.id

/-- Relation ordering rows of `income` by id, for `ORDER BY id ASC`. -/
def incIdLe (a b : IncomeRow) : Prop := a.id ≤ b.id

instance : DecidableRel incIdLe := fun a b => Nat.decLe a.id b.id

/-- Tool `add_expense(date, amount, category, subcategory="", note="")`:
INSERT a row (AUTOINCREMENT assigns the next id), commit, and return the
assigned id (the `"id": cur.lastrowid` part of the ok payload). -/
def add_expense (db : DB) (date : String) (amount : ℚ) (category : String)
    (subcategory : String) (note : String) : DB × Nat :=
  let newId := db.expSeq + 1
  ({ db with
      expenses := db.expenses ++ [⟨newId, date, amount, category, subcategory, note⟩]
      expSeq := newId }, newId)

/-- Tool `list_expenses(start_date, end_date)`:
SELECT rows with `date BETWEEN ? AND ?` ORDER BY id ASC. -/
def list_expenses (db : DB) (start_date end_date : String) : List ExpenseRow :=
  List.insertionSort expIdLe
    (db.expenses.filter (fun r => dateBetween start_date end_date r.date))

/-- Tool `get_expense(expense_id)`: SELECT one row by id; `some` is the ok
payload, `none` the "Expense ID not found" error. -/
def get_expense (db : DB) (expense_id : Nat) : Option ExpenseRow :=
  db.expenses.find? (fun r => decide (r.id = expense_id))

/-- The keyword arguments of `edit_expense`: each field is `none` when the
caller leaves the Python parameter at its default `None`. -/
structure ExpensePatch where
  date : Option String
  amount : Option ℚ
  category : Option String
  subcategory : Option String
  note : Option String
deriving DecidableEq

/-- Test used by `edit_expense`: the `updates` list built from the patch is
empty exactly when every field of the patch is `None`. -/
def ExpensePatch.isEmpty (p : ExpensePatch) : Bool :=
  p.date.isNone && p.amount.isNone && p.category.isNone &&
    p.subcategory.isNone && p.note.isNone

/-- Effect of the assembled `UPDATE expenses SET ...` statement on one row:
each column named in the patch is set to the given value, every other
column keeps its prior value. -/
def applyExpensePatch (p : ExpensePatch) (r : ExpenseRow) : ExpenseRow :=
  { r with
      date := p.date.getD r.date
      amount := p.amount.getD r.amount
      category := p.category.getD r.category
      subcategory := p.subcategory.getD r.subcategory
      note := p.note.getD r.note }

/-- The three outcomes of `edit_expense` / `edit_income`: the ok payload,
the "not found" error, and the "No fields to update" error. -/
inductive EditResult where
  | ok
  | notFound
  | noFields
deriving DecidableEq

/-- Tool `edit_expense(expense_id, ...)`: first a SELECT checks existence
(NotFound if no row), then the patch is checked for emptiness ("No fields
to update"), otherwise the UPDATE touching exactly the named columns runs
on the rows matching the id and is committed. -/
def edit_expense (db : DB) (expense_id : Nat) (p : ExpensePatch) : DB × EditResult :=
  match db.expenses.find? (fun r => decide (r.id = expense_id)) with
  | none => (db, .notFound)
  | some _ =>
    if p.isEmpty then (db, .noFields)
    else
      ({ db with
          expenses := db.expenses.map
            (fun r => if r.id = expense_id then applyExpensePatch p r else r) }, .ok)

/-- Tool `delete_expense(expense_id)`: DELETE by id, commit, then report ok
exactly when `cur.rowcount > 0` (the Bool component; `false` is the
"not found" error). -/
def delete_expense (db : DB) (expense_id : Nat) : DB × Bool :=
  let rowcount := (db.expenses.filter (fun r => decide (r.id = expense_id))).length
  ({ db with expenses := db.expenses.filter (fun r => decide (r.id ≠ expense_id)) },
    decide (0 < rowcount))

/-- Tool `bulk_delete_expenses(expense_ids)`: an empty list is rejected
before any statement (`none`); otherwise one `DELETE ... WHERE id IN (...)`
runs and the ok payload carries `deleted_count = cur.rowcount` (`some`). -/
def bulk_delete_expenses (db : DB) (expense_ids : List Nat) : DB × Option Nat :=
  if expense_ids.isEmpty then (db, none)
  else
    let rowcount := (db.expenses.filter (fun r => decide (r.id ∈ expense_ids))).length
    ({ db with expenses := db.expenses.filter (fun r => decide (r.id ∉ expense_ids)) },
      some rowcount)

/-- SUM(amount) over a list of expense rows (0 for the empty list, matching
COALESCE(SUM(amount), 0) and the empty GROUP BY group never appearing). -/
def sumAmountsExp (rows : List ExpenseRow) : ℚ := (rows.map (fun r => r.amount)).sum

/-- SUM(amount) over a list of income rows. -/
def sumAmountsInc (rows : List IncomeRow) : ℚ := (rows.map (fun r => r.amount)).sum

/-- Python truthiness of the optional text filter argument: `None` and the
empty string are falsy, so `if category:` skips the AND clause for both. -/
def filterActive : Option String → Bool
  | none => false
  | some s => decide (s ≠ "")

/-- Tool `summarize(start_date, end_date, category=None)`: rows in the
inclusive date range, optionally restricted by `AND category = ?` when the
filter is truthy, then `GROUP BY category ORDER BY category ASC` with
`SUM(amount)` per group. -/
def summarize (db : DB) (start_date end_date : String) (category : Option String) :
    List (String × ℚ) :=
  let inRange : List ExpenseRow := db.expenses.filter (fun r => dateBetween start_date end_date r.date)
  let rows : List ExpenseRow :=
    match category with
    | some cat => if decide (cat ≠ "") then inRange.filter (fun r => decide (r.category = cat)) else inRange
    | none => inRange
  let labels := List.insertionSort strLeProp ((rows.map (fun r => r.category)).dedup)
  labels.map (fun l => (l, sumAmountsExp (rows.filter (fun r => decide (r.category = l)))))

/-- Tool `add_income(date, amount, source, note="")`. -/
def add_income (db : DB) (date : String) (amount : ℚ) (source : String)
    (note : String) : DB × Nat :=
  let newId := db.incSeq + 1
  ({ db with
      income := db.income ++ [⟨newId, date, amount, source, note⟩]
      incSeq := newId }, newId)

/-- Tool `list_income(start_date, end_date)`. -/
def list_income (db : DB) (start_date end_date : String) : List IncomeRow :=
  List.insertionSort incIdLe
    (db.income.filter (fun r => dateBetween start_date end_date r.date))

/-- Tool `get_income(income_id)`. -/
def get_income (db : DB) (income_id : Nat) : Option IncomeRow :=
  db.income.find? (fun r => decide (r.id = income_id))

/-- The keyword arguments of `edit_income`. -/
structure IncomePatch where
  date : Option String
  amount : Option ℚ
  source : Option String
  note : Option String
deriving DecidableEq

/-- Emptiness of the `updates` list built by `edit_income`. -/
def IncomePatch.isEmpty (p : IncomePatch) : Bool :=
  p.date.isNone && p.amount.isNone && p.source.isNone && p.note.isNone

/-- Effect of the assembled `UPDATE income SET ...` statement on one row. -/
def applyIncomePatch (p : IncomePatch) (r : IncomeRow) : IncomeRow :=
  { r with
      date := p.date.getD r.date
      amount := p.amount.getD r.amount
      source := p.source.getD r.source
      note := p.note.getD r.note }

/-- Tool `edit_income(income_id, ...)`: same shape as `edit_expense`. -/
def edit_income (db : DB) (income_id : Nat) (p : IncomePatch) : DB × EditResult :=
  match db.income.find? (fun r => decide (r.id = income_id)) with
  | none => (db, .notFound)
  | some _ =>
    if p.isEmpty then (db, .noFields)
    else
      ({ db with
          income := db.income.map
            (fun r => if r.id = income_id then applyIncomePatch p r else r) }, .ok)

/-- Tool `delete_income(income_id)`. -/
def delete_income (db : DB) (income_id : Nat) : DB × Bool :=
  let rowcount := (db.income.filter (fun r => decide (r.id = income_id))).length
  ({ db with income := db.income.filter (fun r => decide (r.id ≠ income_id)) },
    decide (0 < rowcount))

/-- Python `round(x, 2)` on the modelled exact values: round `x * 100` to the
nearest integer, ties to even (the rounding of Python `round`), divide back. -/
def roundHalfEven (x : ℚ) : ℤ :=
  let n : ℤ := ⌊x⌋
  let frac : ℚ := x - n
  if frac < 1 / 2 then n
  else if 1 / 2 < frac then n + 1
  else if n % 2 = 0 then n else n + 1

/-- Rounding to two decimal places, as `round(value, 2)` in `net_cashflow`. -/
def round2 (x : ℚ) : ℚ := (roundHalfEven (x * 100) : ℚ) / 100

/-- The dict returned by `net_cashflow`. -/
structure NetCashflowResult where
  start_date : String
  end_date : String
  total_income : ℚ
  total_expenses : ℚ
  net_cashflow : ℚ
  status : String
deriving DecidableEq

/-- Tool `net_cashflow(start_date, end_date)`:
`COALESCE(SUM(amount), 0)` over each table in the inclusive range, net from
the unrounded sums, all three figures rounded with `round(_, 2)`, and
status `"positive"` when `net >= 0`, else `"negative"`. -/
def net_cashflow (db : DB) (start_date end_date : String) : NetCashflowResult :=
  let total_income :=
    sumAmountsInc (db.income.filter (fun r => dateBetween start_date end_date r.date))
  let total_expenses :=
    sumAmountsExp (db.expenses.filter (fun r => dateBetween start_date end_date r.date))
  let net := total_income - total_expenses
  { start_date := start_date
    end_date := end_date
    total_income := round2 total_income
    total_expenses := round2 total_expenses
    net_cashflow := round2 net
    status := if 0 ≤ net then "positive" else "negative" }

/-- Tool `summarize_income(start_date, end_date, source=None)`. -/
def summarize_income (db : DB) (start_date end_date : String) (source : Option String) :
    List (String × ℚ) :=
  let inRange : List IncomeRow := db.income.filter (fun r => dateBetween start_date end_date r.date)
  let rows : List IncomeRow :=
    match source with
    | some src => if decide (src ≠ "") then inRange.filter (fun r => decide (r.source = src)) else inRange
    | none => inRange
  let labels := List.insertionSort strLeProp ((rows.map (fun r => r.source)).dedup)
  labels.map (fun l => (l, sumAmountsInc (rows.filter (fun r => decide (r.source = l)))))

/-- One call to a data-modifying tool, for stating properties of whole
sequences of operations against the store. -/
inductive Op where
  | addExpense (date : String) (amount : ℚ) (category subcategory note : String)
  | editExpense (expense_id : Nat) (p : ExpensePatch)
  | deleteExpense (expense_id : Nat)
  | bulkDeleteExpenses (expense_ids : List Nat)
  | addIncome (date : String) (amount : ℚ) (source note : String)
  | editIncome (income_id : Nat) (p : IncomePatch)
  | deleteIncome (income_id : Nat)

/-- State transition of one tool call. -/
def applyOp (db : DB) : Op → DB
  | .addExpense d a c sc n => (add_expense db d a c sc n).1
  | .editExpense i p => (edit_expense db i p).1
  | .deleteExpense i => (delete_expense db i).1
  | .bulkDeleteExpenses ids => (bulk_delete_expenses db ids).1
  | .addIncome d a s n => (add_income db d a s n).1
  | .editIncome i p => (edit_income db i p).1
  | .deleteIncome i => (delete_income db i).1

/-- The ids returned by the `add_expense` calls of an operation sequence run
from `db`, in call order. -/
def expIdsFrom (db : DB) : List Op → List Nat
  | [] => []
  | .addExpense d a c sc n :: ops =>
      (add_expense db d a c sc n).2 :: expIdsFrom (applyOp db (.addExpense d a c sc n)) ops
  | op :: ops => expIdsFrom (applyOp db op) ops

/-- The ids returned by the `add_income` calls of an operation sequence run
from `db`, in call order. -/
def incIdsFrom (db : DB) : List Op → List Nat
  | [] => []
  | .addIncome d a s n :: ops =>
      (add_income db d a s n).2 :: incIdsFrom (applyOp db (.addIncome d a s n)) ops
  | op :: ops => incIdsFrom (applyOp db op) ops

/-- Concrete database fixture used to evaluate the operations: one expense
row and one income row, both with id 1. -/
def dbOne : DB :=
  ⟨[⟨1, "2024-01-05", 50, "food", "", ""⟩], 1, [⟨1, "2024-01-03", 100, "salary", ""⟩], 1⟩

/-- Patch fixture setting only the amount of an expense row to 5. -/
def patch5exp : ExpensePatch := ⟨none, some 5, none, none, none⟩

/-- Patch fixture setting only the amount of an income row to 5. -/
def patch5inc : IncomePatch := ⟨none, some 5, none, none⟩

open List

theorem charListLe_total : ∀ a b, charListLe a b = true ∨ charListLe b a = true
  | [], _ => Or.inl rfl
  | _ :: _, [] => Or.inr rfl
  | a :: as, b :: bs => by
    by_cases hab : a.toNat < b.toNat
    · left
      simp [charListLe, hab]
    · by_cases hba : b.toNat < a.toNat
      · right
        simp [charListLe, hba]
      · rcases charListLe_total as bs with ih | ih
        · left
          simp [charListLe, hab, hba, ih]
        · right
          simp [charListLe, hab, hba, ih]

theorem charListLe_trans : ∀ a b c, charListLe a b = true → charListLe b c = true →
    charListLe a c = true
  | [], _, _, _, _ => rfl
  | _ :: _, [], _, h, _ => by simp [charListLe] at h
  | _ :: _, _ :: _, [], _, h => by simp [charListLe] at h
  | x :: xs, y :: ys, z :: zs, h1, h2 => by
    simp only [charListLe] at h1 h2 ⊢
    by_cases hxy : x.toNat < y.toNat
    · by_cases hyz : y.toNat < z.toNat
      · simp [Nat.lt_trans hxy hyz]
      · by_cases hzy : z.toNat < y.toNat
        · simp [hyz, hzy] at h2
        · have hyz2 : y.toNat = z.toNat :=
            Nat.le_antisymm (Nat.le_of_not_lt hzy) (Nat.le_of_not_lt hyz)
          simp [hyz2 ▸ hxy]
    · by_cases hyx : y.toNat < x.toNat
      · simp [hxy, hyx] at h1
      · have hxy2 : x.toNat = y.toNat :=
          Nat.le_antisymm (Nat.le_of_not_lt hyx) (Nat.le_of_not_lt hxy)
        simp only [hxy, hyx, if_false, if_true, ite_false, ite_true] at h1
        by_cases hyz : y.toNat < z.toNat
        · simp [hxy2 ▸ hyz]
        · by_cases hzy : z.toNat < y.toNat
          · simp [hyz, hzy] at h2
          · simp only [hyz, hzy, if_false, if_true, ite_false, ite_true] at h2
            have hxz : ¬ x.toNat < z.toNat := by omega
            have hzx : ¬ z.toNat < x.toNat := by omega
            simp only [hxz, hzx, if_false, ite_false]
            exact charListLe_trans xs ys zs h1 h2

theorem charListLe_antisymm : ∀ a b, charListLe a b = true → charListLe b a = true → a = b
  | [], [], _, _ => rfl
  | [], _ :: _, _, h => by simp [charListLe] at h
  | _ :: _, [], h, _ => by simp [charListLe] at h
  | a :: as, b :: bs, h1, h2 => by
    simp only [charListLe] at h1 h2
    by_cases hab : a.toNat < b.toNat
    · have hba : ¬ b.toNat < a.toNat := Nat.lt_asymm hab
      simp [hab, hba] at h2
    · by_cases hba : b.toNat < a.toNat
      · simp [hab, hba] at h1
      · have hEq : a.toNat = b.toNat :=
          Nat.le_antisymm (Nat.le_of_not_lt hba) (Nat.le_of_not_lt hab)
        have hc : a = b := by
          have := congrArg Char.ofNat hEq
          rwa [Char.ofNat_toNat, Char.ofNat_toNat] at this
        simp only [hab, hba, if_false, ite_false] at h1 h2
        rw [hc, charListLe_antisymm as bs h1 h2]

theorem strLe_antisymm {a b : String} (h1 : strLe a b = true) (h2 : strLe b a = true) :
    a = b :=
  String.toList_inj.mp (charListLe_antisymm a.data b.data h1 h2)

theorem dateBetween_iff {s e d : String} :
    dateBetween s e d = true ↔ (strLe s d = true ∧ strLe d e = true) := by
  simp [dateBetween]

theorem expIds_nodup {l : List ExpenseRow} (h : l.Pairwise fun a b => a.id < b.id) :
    (l.map fun r => r.id).Nodup :=
  List.pairwise_map.mpr (h.imp fun hab => Nat.ne_of_lt hab)

theorem incIds_nodup {l : List IncomeRow} (h : l.Pairwise fun a b => a.id < b.id) :
    (l.map fun r => r.id).Nodup :=
  List.pairwise_map.mpr (h.imp fun hab => Nat.ne_of_lt hab)

theorem exp_row_unique {l : List ExpenseRow} (h : l.Pairwise fun a b => a.id < b.id)
    {r1 r2 : ExpenseRow} (h1 : r1 ∈ l) (h2 : r2 ∈ l) (hid : r1.id = r2.id) : r1 = r2 :=
  List.inj_on_of_nodup_map (expIds_nodup h) h1 h2 hid

theorem inc_row_unique {l : List IncomeRow} (h : l.Pairwise fun a b => a.id < b.id)
    {r1 r2 : IncomeRow} (h1 : r1 ∈ l) (h2 : r2 ∈ l) (hid : r1.id = r2.id) : r1 = r2 :=
  List.inj_on_of_nodup_map (incIds_nodup h) h1 h2 hid

theorem list_expenses_eq_filter {db : DB} (h : db.WF) (s e : String) :
    list_expenses db s e = db.expenses.filter fun r => dateBetween s e r.date :=
  List.Sorted.insertionSort_eq ((h.1.filter _).imp fun hab => Nat.le_of_lt hab)

theorem list_income_eq_filter {db : DB} (h : db.WF) (s e : String) :
    list_income db s e = db.income.filter fun r => dateBetween s e r.date :=
  List.Sorted.insertionSort_eq ((h.2.2.1.filter _).imp fun hab => Nat.le_of_lt hab)

/-- Claim C1, counterexample: the claim asserts that an empty patch yields the
"No fields to update" rejection for every id, including ids absent from the
ledger; but `edit_expense` / `edit_income` run the existence SELECT first, so
on the freshly initialised database an empty patch for id 1 yields the
NotFound error, not the empty-update rejection. -/
theorem C1_counterexample :
    (edit_expense init_db 1 ⟨none, none, none, none, none⟩).2 = EditResult.notFound ∧
    (edit_income init_db 1 ⟨none, none, none, none⟩).2 = EditResult.notFound ∧
    EditResult.notFound ≠ EditResult.noFields :=
  ⟨rfl, rfl, by decide⟩

/-- Claim C1, amended: for every ledger state and id, update with a patch
carrying zero fields executes no data-modifying statement and leaves the
stored state unchanged; when the id exists it yields the ValidationRejection
("No fields to update"), and when the id does not exist it yields NotFound
instead (the existence check runs before the empty-patch check). -/
theorem C1_empty_patch_rejected :
    ∀ (db : DB) (i : Nat) (p : ExpensePatch) (q : IncomePatch),
    p.isEmpty = true → q.isEmpty = true →
    ((edit_expense db i p).1 = db ∧
      ((∃ r ∈ db.expenses, r.id = i) → (edit_expense db i p).2 = EditResult.noFields) ∧
      ((∀ r ∈ db.expenses, r.id ≠ i) → (edit_expense db i p).2 = EditResult.notFound)) ∧
    ((edit_income db i q).1 = db ∧
      ((∃ r ∈ db.income, r.id = i) → (edit_income db i q).2 = EditResult.noFields) ∧
      ((∀ r ∈ db.income, r.id ≠ i) → (edit_income db i q).2 = EditResult.notFound)) := by
  intro db i p q hp hq
  constructor
  · cases hf : db.expenses.find? (fun r => decide (r.id = i)) with
    | none =>
      refine ⟨by simp [edit_expense, hf], ?_, fun _ => by simp [edit_expense, hf]⟩
      rintro ⟨r, hr, hri⟩
      rw [List.find?_eq_none] at hf
      exact absurd (by simpa using hri) (by simpa using hf r hr)
    | some r0 =>
      refine ⟨by simp [edit_expense, hf, hp], fun _ => by simp [edit_expense, hf, hp], ?_⟩
      intro hall
      have := List.find?_some hf
      have hmem := List.mem_of_find?_eq_some hf
      exact absurd (by simpa using this) (hall r0 hmem)
  · cases hf : db.income.find? (fun r => decide (r.id = i)) with
    | none =>
      refine ⟨by simp [edit_income, hf], ?_, fun _ => by simp [edit_income, hf]⟩
      rintro ⟨r, hr, hri⟩
      rw [List.find?_eq_none] at hf
      exact absurd (by simpa using hri) (by simpa using hf r hr)
    | some r0 =>
      refine ⟨by simp [edit_income, hf, hq], fun _ => by simp [edit_income, hf, hq], ?_⟩
      intro hall
      have := List.find?_some hf
      have hmem := List.mem_of_find?_eq_some hf
      exact absurd (by simpa using this) (hall r0 hmem)

/-- Witness for the amended C1 at a one-row database and the all-None patches. -/
theorem C1_empty_patch_rejected_witness :
    (⟨none, none, none, none, none⟩ : ExpensePatch).isEmpty = true ∧
    (⟨none, none, none, none⟩ : IncomePatch).isEmpty = true ∧
    (((edit_expense ⟨[⟨1, "2024-01-05", 50, "food", "", ""⟩], 1,
          [⟨1, "2024-01-03", 100, "salary", ""⟩], 1⟩ 1
            ⟨none, none, none, none, none⟩).1 =
        ⟨[⟨1, "2024-01-05", 50, "food", "", ""⟩], 1,
          [⟨1, "2024-01-03", 100, "salary", ""⟩], 1⟩ ∧
      ((∃ r ∈ (⟨[⟨1, "2024-01-05", 50, "food", "", ""⟩], 1,
            [⟨1, "2024-01-03", 100, "salary", ""⟩], 1⟩ : DB).expenses, r.id = 1) →
        (edit_expense ⟨[⟨1, "2024-01-05", 50, "food", "", ""⟩], 1,
            [⟨1, "2024-01-03", 100, "salary", ""⟩], 1⟩ 1
          ⟨none, none, none, none, none⟩).2 = EditResult.noFields) ∧
      ((∀ r ∈ (⟨[⟨1, "2024-01-05", 50, "food", "", ""⟩], 1,
            [⟨1, "2024-01-03", 100, "salary", ""⟩], 1⟩ : DB).expenses, r.id ≠ 1) →
        (edit_expense ⟨[⟨1, "2024-01-05", 50, "food", "", ""⟩], 1,
            [⟨1, "2024-01-03", 100, "salary", ""⟩], 1⟩ 1
          ⟨none, none, none, none, none⟩).2 = EditResult.notFound)) ∧
    ((edit_income ⟨[⟨1, "2024-01-05", 50, "food", "", ""⟩], 1,
          [⟨1, "2024-01-03", 100, "salary", ""⟩], 1⟩ 1
            ⟨none, none, none, none⟩).1 =
        ⟨[⟨1, "2024-01-05", 50, "food", "", ""⟩], 1,
          [⟨1, "2024-01-03", 100, "salary", ""⟩], 1⟩ ∧
      ((∃ r ∈ (⟨[⟨1, "2024-01-05", 50, "food", "", ""⟩], 1,
            [⟨1, "2024-01-03", 100, "salary", ""⟩], 1⟩ : DB).income, r.id = 1) →
        (edit_income ⟨[⟨1, "2024-01-05", 50, "food", "", ""⟩], 1,
            [⟨1, "2024-01-03", 100, "salary", ""⟩], 1⟩ 1
          ⟨none, none, none, none⟩).2 = EditResult.noFields) ∧
      ((∀ r ∈ (⟨[⟨1, "2024-01-05", 50, "food", "", ""⟩], 1,
            [⟨1, "2024-01-03", 100, "salary", ""⟩], 1⟩ : DB).income, r.id ≠ 1) →
        (edit_income ⟨[⟨1, "2024-01-05", 50, "food", "", ""⟩], 1,
            [⟨1, "2024-01-03", 100, "salary", ""⟩], 1⟩ 1
          ⟨none, none, none, none⟩).2 = EditResult.notFound))) :=
  ⟨rfl, rfl,
    C1_empty_patch_rejected
      ⟨[⟨1, "2024-01-05", 50, "food", "", ""⟩], 1, [⟨1, "2024-01-03", 100, "salary", ""⟩], 1⟩
      1 ⟨none, none, none, none, none⟩ ⟨none, none, none, none⟩ rfl rfl⟩

/-- Claim C2: for an existing record id and a non-empty patch, update
(edit_expense / edit_income) succeeds, changes exactly the fields named in
the patch to the given values on the targeted record (its id and every
unspecified field keep their prior value), leaves every other record of that
ledger in place, and leaves the other ledger untouched. -/
theorem C2_partial_update :
    ∀ (db : DB) (i : Nat) (p : ExpensePatch) (q : IncomePatch), db.WF →
    (∀ r ∈ db.expenses, r.id = i → p.isEmpty = false →
      (edit_expense db i p).2 = EditResult.ok ∧
      (edit_expense db i p).1.income = db.income ∧
      (edit_expense db i p).1.incSeq = db.incSeq ∧
      (edit_expense db i p).1.expSeq = db.expSeq ∧
      (∃ r2 ∈ (edit_expense db i p).1.expenses,
        r2.id = r.id ∧
        r2.date = p.date.getD r.date ∧
        r2.amount = p.amount.getD r.amount ∧
        r2.category = p.category.getD r.category ∧
        r2.subcategory = p.subcategory.getD r.subcategory ∧
        r2.note = p.note.getD r.note) ∧
      (∀ r2 ∈ db.expenses, r2.id ≠ i → r2 ∈ (edit_expense db i p).1.expenses) ∧
      (∀ r2 ∈ (edit_expense db i p).1.expenses,
        r2 = applyExpensePatch p r ∨ (r2 ∈ db.expenses ∧ r2.id ≠ i))) ∧
    (∀ r ∈ db.income, r.id = i → q.isEmpty = false →
      (edit_income db i q).2 = EditResult.ok ∧
      (edit_income db i q).1.expenses = db.expenses ∧
      (edit_income db i q).1.expSeq = db.expSeq ∧
      (edit_income db i q).1.incSeq = db.incSeq ∧
      (∃ r2 ∈ (edit_income db i q).1.income,
        r2.id = r.id ∧
        r2.date = q.date.getD r.date ∧
        r2.amount = q.amount.getD r.amount ∧
        r2.source = q.source.getD r.source ∧
        r2.note = q.note.getD r.note) ∧
      (∀ r2 ∈ db.income, r2.id ≠ i → r2 ∈ (edit_income db i q).1.income) ∧
      (∀ r2 ∈ (edit_income db i q).1.income,
        r2 = applyIncomePatch q r ∨ (r2 ∈ db.income ∧ r2.id ≠ i))) := by
  intro db i p q hwf
  constructor
  · intro r hr hri hp
    cases hfind : db.expenses.find? (fun r => decide (r.id = i)) with
    | none =>
      rw [List.find?_eq_none] at hfind
      exact absurd (by simpa using hri) (by simpa using hfind r hr)
    | some r0 =>
      have hres : edit_expense db i p =
          ({ db with
              expenses := db.expenses.map
                (fun r2 => if r2.id = i then applyExpensePatch p r2 else r2) },
            EditResult.ok) := by
        simp [edit_expense, hfind, hp]
      rw [hres]
      refine ⟨rfl, rfl, rfl, rfl, ?_, ?_, ?_⟩
      · exact ⟨applyExpensePatch p r,
          List.mem_map.mpr ⟨r, hr, by simp [hri]⟩, rfl, rfl, rfl, rfl, rfl, rfl⟩
      · intro r2 hr2 hne
        exact List.mem_map.mpr ⟨r2, hr2, by simp [hne]⟩
      · intro r2 hr2
        obtain ⟨r3, hr3, hg⟩ := List.mem_map.mp hr2
        by_cases h3 : r3.id = i
        · left
          have hr3r : r3 = r := exp_row_unique hwf.1 hr3 hr (by rw [h3, hri])
          subst hr3r
          rw [← hg, if_pos h3]
        · right
          rw [← hg, if_neg h3]
          exact ⟨hr3, h3⟩
  · intro r hr hri hq
    cases hfind : db.income.find? (fun r => decide (r.id = i)) with
    | none =>
      rw [List.find?_eq_none] at hfind
      exact absurd (by simpa using hri) (by simpa using hfind r hr)
    | some r0 =>
      have hres : edit_income db i q =
          ({ db with
              income := db.income.map
                (fun r2 => if r2.id = i then applyIncomePatch q r2 else r2) },
            EditResult.ok) := by
        simp [edit_income, hfind, hq]
      rw [hres]
      refine ⟨rfl, rfl, rfl, rfl, ?_, ?_, ?_⟩
      · exact ⟨applyIncomePatch q r,
          List.mem_map.mpr ⟨r, hr, by simp [hri]⟩, rfl, rfl, rfl, rfl, rfl⟩
      · intro r2 hr2 hne
        exact List.mem_map.mpr ⟨r2, hr2, by simp [hne]⟩
      · intro r2 hr2
        obtain ⟨r3, hr3, hg⟩ := List.mem_map.mp hr2
        by_cases h3 : r3.id = i
        · left
          have hr3r : r3 = r := inc_row_unique hwf.2.2.1 hr3 hr (by rw [h3, hri])
          subst hr3r
          rw [← hg, if_pos h3]
        · right
          rw [← hg, if_neg h3]
          exact ⟨hr3, h3⟩

/-- Witness for C2 at the one-row fixture database and the amount-only patches. -/
theorem C2_partial_update_witness :
    dbOne.WF ∧
    ((∀ r ∈ dbOne.expenses, r.id = 1 → patch5exp.isEmpty = false →
      (edit_expense dbOne 1 patch5exp).2 = EditResult.ok ∧
      (edit_expense dbOne 1 patch5exp).1.income = dbOne.income ∧
      (edit_expense dbOne 1 patch5exp).1.incSeq = dbOne.incSeq ∧
      (edit_expense dbOne 1 patch5exp).1.expSeq = dbOne.expSeq ∧
      (∃ r2 ∈ (edit_expense dbOne 1 patch5exp).1.expenses,
        r2.id = r.id ∧
        r2.date = patch5exp.date.getD r.date ∧
        r2.amount = patch5exp.amount.getD r.amount ∧
        r2.category = patch5exp.category.getD r.category ∧
        r2.subcategory = patch5exp.subcategory.getD r.subcategory ∧
        r2.note = patch5exp.note.getD r.note) ∧
      (∀ r2 ∈ dbOne.expenses, r2.id ≠ 1 → r2 ∈ (edit_expense dbOne 1 patch5exp).1.expenses) ∧
      (∀ r2 ∈ (edit_expense dbOne 1 patch5exp).1.expenses,
        r2 = applyExpensePatch patch5exp r ∨ (r2 ∈ dbOne.expenses ∧ r2.id ≠ 1))) ∧
    (∀ r ∈ dbOne.income, r.id = 1 → patch5inc.isEmpty = false →
      (edit_income dbOne 1 patch5inc).2 = EditResult.ok ∧
      (edit_income dbOne 1 patch5inc).1.expenses = dbOne.expenses ∧
      (edit_income dbOne 1 patch5inc).1.expSeq = dbOne.expSeq ∧
      (edit_income dbOne 1 patch5inc).1.incSeq = dbOne.incSeq ∧
      (∃ r2 ∈ (edit_income dbOne 1 patch5inc).1.income,
        r2.id = r.id ∧
        r2.date = patch5inc.date.getD r.date ∧
        r2.amount = patch5inc.amount.getD r.amount ∧
        r2.source = patch5inc.source.getD r.source ∧
        r2.note = patch5inc.note.getD r.note) ∧
      (∀ r2 ∈ dbOne.income, r2.id ≠ 1 → r2 ∈ (edit_income dbOne 1 patch5inc).1.income) ∧
      (∀ r2 ∈ (edit_income dbOne 1 patch5inc).1.income,
        r2 = applyIncomePatch patch5inc r ∨ (r2 ∈ dbOne.income ∧ r2.id ≠ 1)))) :=
  ⟨by unfold DB.WF; decide, C2_partial_update dbOne 1 patch5exp patch5inc (by unfold DB.WF; decide)⟩

/-- Claim C3: list (list_expenses / list_income) returns exactly the rows
whose date lies in the inclusive lexicographic range [start, end] (both
endpoints included), ordered by ascending id (so never re-sorted by date),
and when nothing matches the result is the empty sequence, not an error. -/
theorem C3_list_inclusive_range :
    ∀ (db : DB) (s e : String), db.WF →
    ((∀ r, r ∈ list_expenses db s e ↔
        (r ∈ db.expenses ∧ strLe s r.date = true ∧ strLe r.date e = true)) ∧
      (list_expenses db s e).Pairwise (fun a b => a.id < b.id) ∧
      ((∀ r ∈ db.expenses, ¬(strLe s r.date = true ∧ strLe r.date e = true)) →
        list_expenses db s e = [])) ∧
    ((∀ r, r ∈ list_income db s e ↔
        (r ∈ db.income ∧ strLe s r.date = true ∧ strLe r.date e = true)) ∧
      (list_income db s e).Pairwise (fun a b => a.id < b.id) ∧
      ((∀ r ∈ db.income, ¬(strLe s r.date = true ∧ strLe r.date e = true)) →
        list_income db s e = [])) := by
  intro db s e hwf
  have he := list_expenses_eq_filter hwf s e
  have hi := list_income_eq_filter hwf s e
  constructor
  · refine ⟨?_, ?_, ?_⟩
    · intro r
      rw [he, List.mem_filter, dateBetween_iff]
    · rw [he]
      exact hwf.1.filter _
    · intro hall
      rw [he, List.filter_eq_nil_iff]
      intro r hr
      exact fun h => hall r hr (dateBetween_iff.mp h)
  · refine ⟨?_, ?_, ?_⟩
    · intro r
      rw [hi, List.mem_filter, dateBetween_iff]
    · rw [hi]
      exact hwf.2.2.1.filter _
    · intro hall
      rw [hi, List.filter_eq_nil_iff]
      intro r hr
      exact fun h => hall r hr (dateBetween_iff.mp h)

/-- Witness for C3 at the one-row fixture database and a concrete range. -/
theorem C3_list_inclusive_range_witness :
    dbOne.WF ∧
    (((∀ r, r ∈ list_expenses dbOne "2024-01-01" "2024-12-31" ↔
        (r ∈ dbOne.expenses ∧ strLe "2024-01-01" r.date = true ∧
          strLe r.date "2024-12-31" = true)) ∧
      (list_expenses dbOne "2024-01-01" "2024-12-31").Pairwise (fun a b => a.id < b.id) ∧
      ((∀ r ∈ dbOne.expenses, ¬(strLe "2024-01-01" r.date = true ∧
          strLe r.date "2024-12-31" = true)) →
        list_expenses dbOne "2024-01-01" "2024-12-31" = [])) ∧
    ((∀ r, r ∈ list_income dbOne "2024-01-01" "2024-12-31" ↔
        (r ∈ dbOne.income ∧ strLe "2024-01-01" r.date = true ∧
          strLe r.date "2024-12-31" = true)) ∧
      (list_income dbOne "2024-01-01" "2024-12-31").Pairwise (fun a b => a.id < b.id) ∧
      ((∀ r ∈ dbOne.income, ¬(strLe "2024-01-01" r.date = true ∧
          strLe r.date "2024-12-31" = true)) →
        list_income dbOne "2024-01-01" "2024-12-31" = []))) :=
  ⟨by unfold DB.WF; decide,
    C3_list_inclusive_range dbOne "2024-01-01" "2024-12-31" (by unfold DB.WF; decide)⟩

/-- Claim C4: a get with the id returned by create yields the ok payload,
a record whose date, amount and category (resp. source) equal the create
inputs and whose omitted optional fields (subcategory, note) are the empty
string, the Python defaults. -/
theorem C4_create_then_get :
    ∀ (db : DB) (d : String) (a : ℚ) (c s : String), db.WF →
    get_expense (add_expense db d a c "" "").1 (add_expense db d a c "" "").2 =
      some ⟨(add_expense db d a c "" "").2, d, a, c, "", ""⟩ ∧
    get_income (add_income db d a s "").1 (add_income db d a s "").2 =
      some ⟨(add_income db d a s "").2, d, a, s, ""⟩ := by
  intro db d a c s hwf
  constructor
  · show (db.expenses ++ [(⟨db.expSeq + 1, d, a, c, "", ""⟩ : ExpenseRow)]).find?
        (fun r => decide (r.id = db.expSeq + 1)) =
      some ⟨db.expSeq + 1, d, a, c, "", ""⟩
    rw [List.find?_append]
    have h1 : db.expenses.find? (fun r => decide (r.id = db.expSeq + 1)) = none := by
      rw [List.find?_eq_none]
      intro r hr
      have := hwf.2.1 r hr
      simp only [decide_eq_true_eq]
      omega
    rw [h1]
    simp [List.find?]
  · show (db.income ++ [(⟨db.incSeq + 1, d, a, s, ""⟩ : IncomeRow)]).find?
        (fun r => decide (r.id = db.incSeq + 1)) =
      some ⟨db.incSeq + 1, d, a, s, ""⟩
    rw [List.find?_append]
    have h1 : db.income.find? (fun r => decide (r.id = db.incSeq + 1)) = none := by
      rw [List.find?_eq_none]
      intro r hr
      have := hwf.2.2.2 r hr
      simp only [decide_eq_true_eq]
      omega
    rw [h1]
    simp [List.find?]

/-- Witness for C4 on the freshly initialised database. -/
theorem C4_create_then_get_witness :
    init_db.WF ∧
    (get_expense (add_expense init_db "2024-01-05" 50 "food" "" "").1
        (add_expense init_db "2024-01-05" 50 "food" "" "").2 =
      some ⟨(add_expense init_db "2024-01-05" 50 "food" "" "").2,
        "2024-01-05", 50, "food", "", ""⟩ ∧
    get_income (add_income init_db "2024-01-05" 50 "salary" "").1
        (add_income init_db "2024-01-05" 50 "salary" "").2 =
      some ⟨(add_income init_db "2024-01-05" 50 "salary" "").2,
        "2024-01-05", 50, "salary", ""⟩) :=
  ⟨by unfold DB.WF; decide,
    C4_create_then_get init_db "2024-01-05" 50 "food" "salary"
      (by unfold DB.WF; decide)⟩

theorem sumAmountsExp_perm {l1 l2 : List ExpenseRow} (h : l1 ~ l2) :
    sumAmountsExp l1 = sumAmountsExp l2 := by
  unfold sumAmountsExp
  exact (h.map fun r => r.amount).sum_eq

theorem sumAmountsInc_perm {l1 l2 : List IncomeRow} (h : l1 ~ l2) :
    sumAmountsInc l1 = sumAmountsInc l2 := by
  unfold sumAmountsInc
  exact (h.map fun r => r.amount).sum_eq

theorem round2_zero : round2 0 = 0 := by
  norm_num [round2, roundHalfEven]

/-- Claim C5: net_cashflow sums the income and the expense amounts of the
inclusive range independently (an empty side sums to 0), computes the net
from the unrounded sums, rounds all three figures to 2 decimal places, and
reports status "positive" exactly when the (unrounded) net is nonnegative
(so a zero net is "positive") and "negative" otherwise. -/
theorem C5_net_cashflow_figures :
    ∀ (db : DB) (s e : String),
    (net_cashflow db s e).total_income = round2 (sumAmountsInc (list_income db s e)) ∧
    (net_cashflow db s e).total_expenses = round2 (sumAmountsExp (list_expenses db s e)) ∧
    (net_cashflow db s e).net_cashflow =
      round2 (sumAmountsInc (list_income db s e) - sumAmountsExp (list_expenses db s e)) ∧
    ((net_cashflow db s e).status = "positive" ↔
      0 ≤ sumAmountsInc (list_income db s e) - sumAmountsExp (list_expenses db s e)) ∧
    ((net_cashflow db s e).status = "negative" ↔
      sumAmountsInc (list_income db s e) - sumAmountsExp (list_expenses db s e) < 0) ∧
    (list_income db s e = [] → (net_cashflow db s e).total_income = 0) ∧
    (list_expenses db s e = [] → (net_cashflow db s e).total_expenses = 0) := by
  intro db s e
  have hI : sumAmountsInc (list_income db s e) =
      sumAmountsInc (db.income.filter fun r => dateBetween s e r.date) :=
    sumAmountsInc_perm (perm_insertionSort incIdLe _)
  have hE : sumAmountsExp (list_expenses db s e) =
      sumAmountsExp (db.expenses.filter fun r => dateBetween s e r.date) :=
    sumAmountsExp_perm (perm_insertionSort expIdLe _)
  have h1 : (net_cashflow db s e).total_income =
      round2 (sumAmountsInc (db.income.filter fun r => dateBetween s e r.date)) := rfl
  have h2 : (net_cashflow db s e).total_expenses =
      round2 (sumAmountsExp (db.expenses.filter fun r => dateBetween s e r.date)) := rfl
  have h3 : (net_cashflow db s e).net_cashflow =
      round2 (sumAmountsInc (db.income.filter fun r => dateBetween s e r.date) -
        sumAmountsExp (db.expenses.filter fun r => dateBetween s e r.date)) := rfl
  have h4 : (net_cashflow db s e).status =
      (if 0 ≤ sumAmountsInc (db.income.filter fun r => dateBetween s e r.date) -
          sumAmountsExp (db.expenses.filter fun r => dateBetween s e r.date)
        then "positive" else "negative") := rfl
  refine ⟨by rw [h1, hI], by rw [h2, hE], by rw [h3, hI, hE], ?_, ?_, ?_, ?_⟩
  · rw [h4, ← hI, ← hE]
    by_cases h : 0 ≤ sumAmountsInc (list_income db s e) - sumAmountsExp (list_expenses db s e)
    · rw [if_pos h]
      simp [h]
    · rw [if_neg h]
      constructor
      · intro hc
        exact absurd hc (by decide)
      · intro hc
        exact absurd hc h
  · rw [h4, ← hI, ← hE]
    by_cases h : 0 ≤ sumAmountsInc (list_income db s e) - sumAmountsExp (list_expenses db s e)
    · rw [if_pos h]
      constructor
      · intro hc
        exact absurd hc (by decide)
      · intro hc
        exact absurd h (not_le.mpr hc)
    · rw [if_neg h]
      simp [not_le.mp h]
  · intro hnil
    rw [h1, ← hI, hnil]
    show round2 (sumAmountsInc []) = 0
    rw [show sumAmountsInc [] = 0 from rfl, round2_zero]
  · intro hnil
    rw [h2, ← hE, hnil]
    show round2 (sumAmountsExp []) = 0
    rw [show sumAmountsExp [] = 0 from rfl, round2_zero]

theorem filter_mem_length_eq_dedup {rows : List ExpenseRow}
    (h : (rows.map fun r => r.id).Nodup) (ids : List Nat) :
    (rows.filter fun r => decide (r.id ∈ ids)).length =
      (ids.dedup.filter fun i => decide (i ∈ rows.map fun r => r.id)).length := by
  have hA : ((rows.filter fun r => decide (r.id ∈ ids)).map fun r => r.id).Nodup :=
    h.sublist ((List.filter_sublist rows).map _)
  have hB : (ids.dedup.filter fun i => decide (i ∈ rows.map fun r => r.id)).Nodup :=
    (List.nodup_dedup ids).filter _
  have hperm : ((rows.filter fun r => decide (r.id ∈ ids)).map fun r => r.id) ~
      (ids.dedup.filter fun i => decide (i ∈ rows.map fun r => r.id)) := by
    rw [List.perm_ext_iff_of_nodup hA hB]
    intro n
    simp only [List.mem_map, List.mem_filter, List.mem_dedup, decide_eq_true_eq]
    constructor
    · rintro ⟨r, ⟨hr, hin⟩, hid⟩
      refine ⟨by rw [← hid]; exact hin, r, hr, hid⟩
    · rintro ⟨hin, r, hr, hid⟩
      exact ⟨r, ⟨hr, by rw [hid]; exact hin⟩, hid⟩
  have hlen := hperm.length_eq
  simpa using hlen

/-- Claim C6: bulk_delete_expenses rejects the empty id list before touching
the store; for a non-empty list it removes exactly the rows whose id occurs
in the list, leaves everything else (other expense rows, the income table,
both counters) unchanged, reports ok, and the returned deleted_count equals
the number of distinct requested ids present in the table, ids that did not
exist being silently ignored. -/
theorem C6_bulk_delete :
    ∀ (db : DB) (ids : List Nat), db.WF →
    bulk_delete_expenses db [] = (db, none) ∧
    (ids ≠ [] →
      (bulk_delete_expenses db ids).2 =
        some ((ids.dedup.filter fun i => decide (i ∈ db.expenses.map fun r => r.id)).length) ∧
      (∀ r, r ∈ (bulk_delete_expenses db ids).1.expenses ↔ (r ∈ db.expenses ∧ r.id ∉ ids)) ∧
      (bulk_delete_expenses db ids).1.income = db.income ∧
      (bulk_delete_expenses db ids).1.expSeq = db.expSeq ∧
      (bulk_delete_expenses db ids).1.incSeq = db.incSeq) := by
  intro db ids hwf
  constructor
  · rfl
  · intro hne
    have hni : ids.isEmpty = false := by
      cases ids with
      | nil => exact absurd rfl hne
      | cons a l => rfl
    have hres : bulk_delete_expenses db ids =
        ({ db with expenses := db.expenses.filter fun r => decide (r.id ∉ ids) },
          some ((db.expenses.filter fun r => decide (r.id ∈ ids)).length)) := by
      simp [bulk_delete_expenses, hni]
    rw [hres]
    refine ⟨congrArg some (filter_mem_length_eq_dedup (expIds_nodup hwf.1) ids), ?_, rfl, rfl, rfl⟩
    intro r
    simp [List.mem_filter]

/-- Witness for C6 at the fixture database, requesting ids 1 and 2 of which
only id 1 exists. -/
theorem C6_bulk_delete_witness :
    dbOne.WF ∧
    (bulk_delete_expenses dbOne [] = (dbOne, none) ∧
    (([1, 2] : List Nat) ≠ [] →
      (bulk_delete_expenses dbOne [1, 2]).2 =
        some ((([1, 2] : List Nat).dedup.filter fun i =>
          decide (i ∈ dbOne.expenses.map fun r => r.id)).length) ∧
      (∀ r, r ∈ (bulk_delete_expenses dbOne [1, 2]).1.expenses ↔
        (r ∈ dbOne.expenses ∧ r.id ∉ ([1, 2] : List Nat))) ∧
      (bulk_delete_expenses dbOne [1, 2]).1.income = dbOne.income ∧
      (bulk_delete_expenses dbOne [1, 2]).1.expSeq = dbOne.expSeq ∧
      (bulk_delete_expenses dbOne [1, 2]).1.incSeq = dbOne.incSeq)) :=
  ⟨by unfold DB.WF; decide, C6_bulk_delete dbOne [1, 2] (by unfold DB.WF; decide)⟩

/-- Claim C7: delete (delete_expense / delete_income) reports ok exactly when
a row with the id existed, NotFound exactly when none did (the Bool outcome
makes the two mutually exclusive and exhaustive, decided by the affected-row
count), the targeted row is removed while every other row stays, and a get
with that id after the delete yields NotFound. -/
theorem C7_delete_then_get :
    ∀ (db : DB) (i : Nat),
    ((delete_expense db i).2 = true ↔ ∃ r ∈ db.expenses, r.id = i) ∧
    ((delete_expense db i).2 = false ↔ ∀ r ∈ db.expenses, r.id ≠ i) ∧
    (∀ r, r ∈ (delete_expense db i).1.expenses ↔ (r ∈ db.expenses ∧ r.id ≠ i)) ∧
    get_expense (delete_expense db i).1 i = none ∧
    ((delete_income db i).2 = true ↔ ∃ r ∈ db.income, r.id = i) ∧
    ((delete_income db i).2 = false ↔ ∀ r ∈ db.income, r.id ≠ i) ∧
    (∀ r, r ∈ (delete_income db i).1.income ↔ (r ∈ db.income ∧ r.id ≠ i)) ∧
    get_income (delete_income db i).1 i = none := by
  intro db i
  have keyE : (0 < (db.expenses.filter fun r => decide (r.id = i)).length) ↔
      ∃ r ∈ db.expenses, r.id = i := by
    rw [← List.countP_eq_length_filter, List.countP_pos_iff]
    simp
  have keyI : (0 < (db.income.filter fun r => decide (r.id = i)).length) ↔
      ∃ r ∈ db.income, r.id = i := by
    rw [← List.countP_eq_length_filter, List.countP_pos_iff]
    simp
  refine ⟨?_, ?_, ?_, ?_, ?_, ?_, ?_, ?_⟩
  · rw [show (delete_expense db i).2 =
        decide (0 < (db.expenses.filter fun r => decide (r.id = i)).length) from rfl]
    rw [decide_eq_true_eq]
    exact keyE
  · rw [show (delete_expense db i).2 =
        decide (0 < (db.expenses.filter fun r => decide (r.id = i)).length) from rfl]
    rw [decide_eq_false_iff_not, keyE]
    simp
  · intro r
    rw [show (delete_expense db i).1.expenses =
        db.expenses.filter fun r => decide (r.id ≠ i) from rfl]
    simp [List.mem_filter]
  · rw [show get_expense (delete_expense db i).1 i =
        ((db.expenses.filter fun r => decide (r.id ≠ i)).find? fun r => decide (r.id = i))
        from rfl]
    rw [List.find?_eq_none]
    intro r hr
    have hne := (List.mem_filter.mp hr).2
    simp at hne ⊢
    exact hne
  · rw [show (delete_income db i).2 =
        decide (0 < (db.income.filter fun r => decide (r.id = i)).length) from rfl]
    rw [decide_eq_true_eq]
    exact keyI
  · rw [show (delete_income db i).2 =
        decide (0 < (db.income.filter fun r => decide (r.id = i)).length) from rfl]
    rw [decide_eq_false_iff_not, keyI]
    simp
  · intro r
    rw [show (delete_income db i).1.income =
        db.income.filter fun r => decide (r.id ≠ i) from rfl]
    simp [List.mem_filter]
  · rw [show get_income (delete_income db i).1 i =
        ((db.income.filter fun r => decide (r.id ≠ i)).find? fun r => decide (r.id = i))
        from rfl]
    rw [List.find?_eq_none]
    intro r hr
    have hne := (List.mem_filter.mp hr).2
    simp at hne ⊢
    exact hne

theorem mem_groupMap {α : Type} (labels : List String) (f : String → α) (l : String) (t : α) :
    (l, t) ∈ labels.map (fun x => (x, f x)) ↔ (l ∈ labels ∧ t = f l) := by
  simp only [List.mem_map, Prod.mk.injEq]
  constructor
  · rintro ⟨x, hx, rfl, ht⟩
    exact ⟨hx, ht.symm⟩
  · rintro ⟨hl, rfl⟩
    exact ⟨l, hl, rfl, rfl⟩

theorem groupMap_fst {α : Type} (labels : List String) (f : String → α) :
    (labels.map fun x => (x, f x)).map Prod.fst = labels := by
  rw [List.map_map]
  exact List.map_id labels

theorem labels_sorted (l : List String) :
    (List.insertionSort strLeProp l).Pairwise strLeProp :=
  @List.sorted_insertionSort String strLeProp _
    ⟨fun a b => charListLe_total a.data b.data⟩
    ⟨fun a b c => charListLe_trans a.data b.data c.data⟩ l

/-- Claim C8: with no filter, summarize (summarize / summarize_income) has
one group per distinct category (resp. source) occurring among the rows of
the inclusive date range (no zero-row group is synthesized), each group
total is the sum of the amounts that list returns for that range restricted
to that label, and the groups are in strictly ascending lexicographic label
order. -/
theorem C8_summarize_grouping :
    ∀ (db : DB) (s e : String),
    ((∀ l t, (l, t) ∈ summarize db s e none ↔
        ((∃ r ∈ list_expenses db s e, r.category = l) ∧
          t = sumAmountsExp ((list_expenses db s e).filter fun r => decide (r.category = l)))) ∧
      ((summarize db s e none).map Prod.fst).Pairwise
        (fun a b => strLe a b = true ∧ a ≠ b)) ∧
    ((∀ l t, (l, t) ∈ summarize_income db s e none ↔
        ((∃ r ∈ list_income db s e, r.source = l) ∧
          t = sumAmountsInc ((list_income db s e).filter fun r => decide (r.source = l)))) ∧
      ((summarize_income db s e none).map Prod.fst).Pairwise
        (fun a b => strLe a b = true ∧ a ≠ b)) := by
  intro db s e
  constructor
  · have hperm : list_expenses db s e ~
        db.expenses.filter (fun r => dateBetween s e r.date) :=
      perm_insertionSort expIdLe _
    have hsum : summarize db s e none =
        (List.insertionSort strLeProp
            (((db.expenses.filter fun r => dateBetween s e r.date).map
              fun r => r.category).dedup)).map
          (fun l => (l, sumAmountsExp
            ((db.expenses.filter fun r => dateBetween s e r.date).filter
              fun r => decide (r.category = l)))) := rfl
    constructor
    · intro l t
      rw [hsum, mem_groupMap]
      have hlab : l ∈ List.insertionSort strLeProp
          (((db.expenses.filter fun r => dateBetween s e r.date).map
            fun r => r.category).dedup) ↔
          ∃ r ∈ list_expenses db s e, r.category = l := by
        rw [List.mem_insertionSort, List.mem_dedup, List.mem_map]
        constructor
        · rintro ⟨r, hr, hrl⟩
          exact ⟨r, hperm.mem_iff.mpr hr, hrl⟩
        · rintro ⟨r, hr, hrl⟩
          exact ⟨r, hperm.mem_iff.mp hr, hrl⟩
      have hval : sumAmountsExp
          ((db.expenses.filter fun r => dateBetween s e r.date).filter
            fun r => decide (r.category = l)) =
          sumAmountsExp ((list_expenses db s e).filter fun r => decide (r.category = l)) :=
        sumAmountsExp_perm (hperm.filter _).symm
      rw [hlab, hval]
    · rw [hsum, groupMap_fst]
      have hnd : (List.insertionSort strLeProp
          (((db.expenses.filter fun r => dateBetween s e r.date).map
            fun r => r.category).dedup)).Nodup :=
        (perm_insertionSort strLeProp _).nodup_iff.mpr (List.nodup_dedup _)
      exact (labels_sorted _).and hnd
  · have hperm : list_income db s e ~
        db.income.filter (fun r => dateBetween s e r.date) :=
      perm_insertionSort incIdLe _
    have hsum : summarize_income db s e none =
        (List.insertionSort strLeProp
            (((db.income.filter fun r => dateBetween s e r.date).map
              fun r => r.source).dedup)).map
          (fun l => (l, sumAmountsInc
            ((db.income.filter fun r => dateBetween s e r.date).filter
              fun r => decide (r.source = l)))) := rfl
    constructor
    · intro l t
      rw [hsum, mem_groupMap]
      have hlab : l ∈ List.insertionSort strLeProp
          (((db.income.filter fun r => dateBetween s e r.date).map
            fun r => r.source).dedup) ↔
          ∃ r ∈ list_income db s e, r.source = l := by
        rw [List.mem_insertionSort, List.mem_dedup, List.mem_map]
        constructor
        · rintro ⟨r, hr, hrl⟩
          exact ⟨r, hperm.mem_iff.mpr hr, hrl⟩
        · rintro ⟨r, hr, hrl⟩
          exact ⟨r, hperm.mem_iff.mp hr, hrl⟩
      have hval : sumAmountsInc
          ((db.income.filter fun r => dateBetween s e r.date).filter
            fun r => decide (r.source = l)) =
          sumAmountsInc ((list_income db s e).filter fun r => decide (r.source = l)) :=
        sumAmountsInc_perm (hperm.filter _).symm
      rw [hlab, hval]
    · rw [hsum, groupMap_fst]
      have hnd : (List.insertionSort strLeProp
          (((db.income.filter fun r => dateBetween s e r.date).map
            fun r => r.source).dedup)).Nodup :=
        (perm_insertionSort strLeProp _).nodup_iff.mpr (List.nodup_dedup _)
      exact (labels_sorted _).and hnd

theorem applyOp_expSeq_le (db : DB) (op : Op) : db.expSeq ≤ (applyOp db op).expSeq := by
  cases op with
  | addExpense d a c sc n => exact Nat.le_succ _
  | editExpense i p =>
    show db.expSeq ≤ (edit_expense db i p).1.expSeq
    cases hf : db.expenses.find? (fun r => decide (r.id = i)) with
    | none => simp [edit_expense, hf]
    | some r0 =>
      by_cases hp : p.isEmpty <;> simp [edit_expense, hf, hp]
  | deleteExpense i => exact Nat.le_refl _
  | bulkDeleteExpenses ids =>
    show db.expSeq ≤ (bulk_delete_expenses db ids).1.expSeq
    by_cases hi : ids.isEmpty <;> simp [bulk_delete_expenses, hi]
  | addIncome d a s n => exact Nat.le_refl _
  | editIncome i q =>
    show db.expSeq ≤ (edit_income db i q).1.expSeq
    cases hf : db.income.find? (fun r => decide (r.id = i)) with
    | none => simp [edit_income, hf]
    | some r0 =>
      by_cases hq : q.isEmpty <;> simp [edit_income, hf, hq]
  | deleteIncome i => exact Nat.le_refl _

theorem applyOp_incSeq_le (db : DB) (op : Op) : db.incSeq ≤ (applyOp db op).incSeq := by
  cases op with
  | addExpense d a c sc n => exact Nat.le_refl _
  | editExpense i p =>
    show db.incSeq ≤ (edit_expense db i p).1.incSeq
    cases hf : db.expenses.find? (fun r => decide (r.id = i)) with
    | none => simp [edit_expense, hf]
    | some r0 =>
      by_cases hp : p.isEmpty <;> simp [edit_expense, hf, hp]
  | deleteExpense i => exact Nat.le_refl _
  | bulkDeleteExpenses ids =>
    show db.incSeq ≤ (bulk_delete_expenses db ids).1.incSeq
    by_cases hi : ids.isEmpty <;> simp [bulk_delete_expenses, hi]
  | addIncome d a s n => exact Nat.le_succ _
  | editIncome i q =>
    show db.incSeq ≤ (edit_income db i q).1.incSeq
    cases hf : db.income.find? (fun r => decide (r.id = i)) with
    | none => simp [edit_income, hf]
    | some r0 =>
      by_cases hq : q.isEmpty <;> simp [edit_income, hf, hq]
  | deleteIncome i => exact Nat.le_refl _

theorem expIdsFrom_gt : ∀ (ops : List Op) (db : DB), ∀ n ∈ expIdsFrom db ops, db.expSeq < n := by
  intro ops
  induction ops with
  | nil =>
    intro db n hn
    simp [expIdsFrom] at hn
  | cons op ops ih =>
    intro db n hn
    cases op with
    | addExpense d a c sc n0 =>
      simp only [expIdsFrom] at hn
      rcases List.mem_cons.mp hn with h | h
      · have h2 : n = db.expSeq + 1 := h
        omega
      · exact lt_of_le_of_lt (applyOp_expSeq_le db _) (ih _ n h)
    | editExpense i p =>
      simp only [expIdsFrom] at hn
      exact lt_of_le_of_lt (applyOp_expSeq_le db _) (ih _ n hn)
    | deleteExpense i =>
      simp only [expIdsFrom] at hn
      exact lt_of_le_of_lt (applyOp_expSeq_le db _) (ih _ n hn)
    | bulkDeleteExpenses ids =>
      simp only [expIdsFrom] at hn
      exact lt_of_le_of_lt (applyOp_expSeq_le db _) (ih _ n hn)
    | addIncome d a s n0 =>
      simp only [expIdsFrom] at hn
      exact lt_of_le_of_lt (applyOp_expSeq_le db _) (ih _ n hn)
    | editIncome i q =>
      simp only [expIdsFrom] at hn
      exact lt_of_le_of_lt (applyOp_expSeq_le db _) (ih _ n hn)
    | deleteIncome i =>
      simp only [expIdsFrom] at hn
      exact lt_of_le_of_lt (applyOp_expSeq_le db _) (ih _ n hn)

theorem incIdsFrom_gt : ∀ (ops : List Op) (db : DB), ∀ n ∈ incIdsFrom db ops, db.incSeq < n := by
  intro ops
  induction ops with
  | nil =>
    intro db n hn
    simp [incIdsFrom] at hn
  | cons op ops ih =>
    intro db n hn
    cases op with
    | addIncome d a s n0 =>
      simp only [incIdsFrom] at hn
      rcases List.mem_cons.mp hn with h | h
      · have h2 : n = db.incSeq + 1 := h
        omega
      · exact lt_of_le_of_lt (applyOp_incSeq_le db _) (ih _ n h)
    | addExpense d a c sc n0 =>
      simp only [incIdsFrom] at hn
      exact lt_of_le_of_lt (applyOp_incSeq_le db _) (ih _ n hn)
    | editExpense i p =>
      simp only [incIdsFrom] at hn
      exact lt_of_le_of_lt (applyOp_incSeq_le db _) (ih _ n hn)
    | deleteExpense i =>
      simp only [incIdsFrom] at hn
      exact lt_of_le_of_lt (applyOp_incSeq_le db _) (ih _ n hn)
    | bulkDeleteExpenses ids =>
      simp only [incIdsFrom] at hn
      exact lt_of_le_of_lt (applyOp_incSeq_le db _) (ih _ n hn)
    | editIncome i q =>
      simp only [incIdsFrom] at hn
      exact lt_of_le_of_lt (applyOp_incSeq_le db _) (ih _ n hn)
    | deleteIncome i =>
      simp only [incIdsFrom] at hn
      exact lt_of_le_of_lt (applyOp_incSeq_le db _) (ih _ n hn)

theorem expIdsFrom_pairwise : ∀ (ops : List Op) (db : DB),
    (expIdsFrom db ops).Pairwise (· < ·) := by
  intro ops
  induction ops with
  | nil =>
    intro db
    simp [expIdsFrom]
  | cons op ops ih =>
    intro db
    cases op with
    | addExpense d a c sc n0 =>
      simp only [expIdsFrom]
      refine List.pairwise_cons.mpr ⟨?_, ih _⟩
      intro n hn
      have h3 := expIdsFrom_gt ops (applyOp db (Op.addExpense d a c sc n0)) n hn
      have h4 : (applyOp db (Op.addExpense d a c sc n0)).expSeq = db.expSeq + 1 := rfl
      show (add_expense db d a c sc n0).2 < n
      have h5 : (add_expense db d a c sc n0).2 = db.expSeq + 1 := rfl
      omega
    | editExpense i p =>
      simp only [expIdsFrom]
      exact ih _
    | deleteExpense i =>
      simp only [expIdsFrom]
      exact ih _
    | bulkDeleteExpenses ids =>
      simp only [expIdsFrom]
      exact ih _
    | addIncome d a s n0 =>
      simp only [expIdsFrom]
      exact ih _
    | editIncome i q =>
      simp only [expIdsFrom]
      exact ih _
    | deleteIncome i =>
      simp only [expIdsFrom]
      exact ih _

theorem incIdsFrom_pairwise : ∀ (ops : List Op) (db : DB),
    (incIdsFrom db ops).Pairwise (· < ·) := by
  intro ops
  induction ops with
  | nil =>
    intro db
    simp [incIdsFrom]
  | cons op ops ih =>
    intro db
    cases op with
    | addIncome d a s n0 =>
      simp only [incIdsFrom]
      refine List.pairwise_cons.mpr ⟨?_, ih _⟩
      intro n hn
      have h3 := incIdsFrom_gt ops (applyOp db (Op.addIncome d a s n0)) n hn
      have h4 : (applyOp db (Op.addIncome d a s n0)).incSeq = db.incSeq + 1 := rfl
      show (add_income db d a s n0).2 < n
      have h5 : (add_income db d a s n0).2 = db.incSeq + 1 := rfl
      omega
    | addExpense d a c sc n0 =>
      simp only [incIdsFrom]
      exact ih _
    | editExpense i p =>
      simp only [incIdsFrom]
      exact ih _
    | deleteExpense i =>
      simp only [incIdsFrom]
      exact ih _
    | bulkDeleteExpenses ids =>
      simp only [incIdsFrom]
      exact ih _
    | editIncome i q =>
      simp only [incIdsFrom]
      exact ih _
    | deleteIncome i =>
      simp only [incIdsFrom]
      exact ih _

/-- Claim C9: along every sequence of operations run from the freshly
initialised store, the ids handed out by create are strictly increasing
within each ledger (each is larger than every id assigned before it, and no
id is ever reused, deletions notwithstanding), and an update never changes
the id of any stored record. -/
theorem C9_ids_monotone_never_reused :
    ∀ ops : List Op,
    (expIdsFrom init_db ops).Pairwise (· < ·) ∧
    (incIdsFrom init_db ops).Pairwise (· < ·) ∧
    (∀ (db : DB) (i : Nat) (p : ExpensePatch),
      (edit_expense db i p).1.expenses.map (fun r => r.id) =
        db.expenses.map fun r => r.id) ∧
    (∀ (db : DB) (i : Nat) (q : IncomePatch),
      (edit_income db i q).1.income.map (fun r => r.id) =
        db.income.map fun r => r.id) := by
  intro ops
  refine ⟨expIdsFrom_pairwise ops init_db, incIdsFrom_pairwise ops init_db, ?_, ?_⟩
  · intro db i p
    cases hf : db.expenses.find? (fun r => decide (r.id = i)) with
    | none => simp [edit_expense, hf]
    | some r0 =>
      by_cases hp : p.isEmpty
      · simp [edit_expense, hf, hp]
      · have hexp : (edit_expense db i p).1.expenses =
            db.expenses.map (fun r => if r.id = i then applyExpensePatch p r else r) := by
          simp [edit_expense, hf, hp]
        rw [hexp, List.map_map]
        apply List.map_congr_left
        intro r hr
        by_cases h : r.id = i
        · simp [Function.comp, h, applyExpensePatch]
        · simp [Function.comp, h]
  · intro db i q
    cases hf : db.income.find? (fun r => decide (r.id = i)) with
    | none => simp [edit_income, hf]
    | some r0 =>
      by_cases hq : q.isEmpty
      · simp [edit_income, hf, hq]
      · have hinc : (edit_income db i q).1.income =
            db.income.map (fun r => if r.id = i then applyIncomePatch q r else r) := by
          simp [edit_income, hf, hq]
        rw [hinc, List.map_map]
        apply List.map_congr_left
        intro r hr
        by_cases h : r.id = i
        · simp [Function.comp, h, applyIncomePatch]
        · simp [Function.comp, h]

/-- Claim C10: because Python treats the empty string as falsy, summarize
(and summarize_income) with the filter argument equal to the empty string
behaves exactly like the unfiltered call, for every ledger state and range;
so the filter can never restrict the output to the empty-label group, even
though rows with an empty category (resp. source) do appear as their own
group in the unfiltered output, as the concrete databases below show. -/
theorem C10_empty_string_filter_inactive :
    (∀ (db : DB) (s e : String),
      summarize db s e (some "") = summarize db s e none ∧
      summarize_income db s e (some "") = summarize_income db s e none) ∧
    "" ∈ ((summarize ⟨[⟨1, "2024-01-05", 5, "", "", ""⟩], 1, [], 0⟩
        "2024-01-01" "2024-12-31" none).map Prod.fst) ∧
    "" ∈ ((summarize_income ⟨[], 0, [⟨1, "2024-01-05", 5, "", ""⟩], 1⟩
        "2024-01-01" "2024-12-31" none).map Prod.fst) := by
  refine ⟨fun db s e => ⟨rfl, rfl⟩, by decide, by decide⟩

end ExpenseTracker
